import Mathlib

/-!
Verification of dstack's AWS resource-provisioning module
(`dstack/_internal/core/backends/aws/resources.py`).

The Python module is shallowly embedded below: pure functions become Lean
functions, remote AWS calls become explicit state passing over record types
modelling the remote account state, and fallible calls return `Except`.
Python dicts appearing as data (security-group rules, request structures)
are modelled as association lists of `Value`s; Python guarantees unique keys
in dict literals, which is captured by the `wfValue` predicate.
-/

namespace DstackAws

/-! ## JSON-like values (security-group rules and nested API data) -/

inductive Value where
  | str : String → Value
  | int : Int → Value
  | list : List Value → Value
  | dict : List (String × Value) → Value
deriving Repr

mutual

/-- Structural equality of values, the meaning of Python `==` on the
str/int/list/dict fragment.  (`isSubset` below only ever reaches this
on non-dict/non-list pairs, where it coincides with Python equality.) -/
def valueBeq : Value → Value → Bool
  | .str a, .str b => a == b
  | .int a, .int b => a == b
  | .list xs, .list ys => valueBeqList xs ys
  | .dict a, .dict b => valueBeqPairs a b
  | _, _ => false

def valueBeqList : List Value → List Value → Bool
  | [], [] => true
  | x :: xs, y :: ys => valueBeq x y && valueBeqList xs ys
  | _, _ => false

def valueBeqPairs : List (String × Value) → List (String × Value) → Bool
  | [], [] => true
  | (k1, v1) :: xs, (k2, v2) :: ys => k1 == k2 && valueBeq v1 v2 && valueBeqPairs xs ys
  | _, _ => false

end

instance valueBEqInst : BEq Value := ⟨valueBeq⟩

mutual

/-- Embedding of `_is_subset(subset, superset)` (resources.py lines 404-411):
for two dicts, every key of `subset` must be present in `superset` with a
recursively matching value; for two lists, the lengths must agree and the
elements match pairwise; otherwise plain equality is required. -/
def isSubset : Value → Value → Bool
  | .dict kvs, .dict kvs2 => isSubsetPairs kvs kvs2
  | .list xs, .list ys => isSubsetListExact xs ys
  | a, b => a == b

/-- Recursive rendering of
`all(k in superset and _is_subset(v, superset[k]) for k, v in subset.items())`;
`isSubsetPairs_eq_all` below proves it equal to the `all`-over-items form. -/
def isSubsetPairs : List (String × Value) → List (String × Value) → Bool
  | [], _ => true
  | (k, v) :: rest, kvs2 =>
      (match kvs2.lookup k with
       | some v2 => isSubset v v2
       | none => false) && isSubsetPairs rest kvs2

/-- Recursive rendering of
`len(subset) == len(superset) and all(_is_subset(v1, v2) for v1, v2 in zip(subset, superset))`;
`isSubsetListExact_eq_zip` below proves it equal to the length-and-zip form. -/
def isSubsetListExact : List Value → List Value → Bool
  | [], [] => true
  | [], _ :: _ => false
  | _ :: _, [] => false
  | x :: xs, y :: ys => isSubset x y && isSubsetListExact xs ys

end

mutual

/-- Well-formedness of an embedded Python value: every dict level has
pairwise-distinct keys, as Python dicts guarantee. -/
def wfValue : Value → Bool
  | .str _ => true
  | .int _ => true
  | .list xs => wfValueList xs
  | .dict kvs => decide ((kvs.map Prod.fst).Nodup) && wfValuePairs kvs

def wfValueList : List Value → Bool
  | [] => true
  | x :: xs => wfValue x && wfValueList xs

def wfValuePairs : List (String × Value) → Bool
  | [] => true
  | (_, v) :: kvs => wfValue v && wfValuePairs kvs

end

/-- Keys of a pattern value: the key list when it is a dict, empty otherwise. -/
def patternKeys : Value → List String
  | .dict kvs => kvs.map Prod.fst
  | _ => []

/-- Satisfaction relation exactly as the specification words it: when both
values are mappings, every key of the pattern occurs in the actual value with
a recursively satisfying value (extra keys in the actual are ignored); when
both are sequences, the lengths are equal and the elements satisfy pairwise;
in every other case the pattern must equal the actual exactly. -/
inductive Satisfies : Value → Value → Prop where
  | dict : ∀ {kvs kvs2 : List (String × Value)},
      (∀ k v, (k, v) ∈ kvs → (kvs2.lookup k).isSome = true) →
      (∀ k v, (k, v) ∈ kvs → ∀ v2, kvs2.lookup k = some v2 → Satisfies v v2) →
      Satisfies (.dict kvs) (.dict kvs2)
  | list : ∀ {xs ys : List Value}, xs.length = ys.length →
      (∀ p ∈ xs.zip ys, Satisfies p.1 p.2) →
      Satisfies (.list xs) (.list ys)
  | str : ∀ s, Satisfies (.str s) (.str s)
  | int : ∀ n, Satisfies (.int n) (.int n)

/-- Embedding of `_rule_exists(rule, rules)` (resources.py lines 396-401). -/
def ruleExists (rule : Value) (rules : List Value) : Bool :=
  rules.any fun otherRule => isSubset rule otherRule

/-! ## Deterministic resource names

Each name is a fixed prefix applied to `project_id.replace("-", "_").lower()`.
The single-character `replace` is rendered as a character map; `Char.toLower`
agrees with Python `str.lower` on the ASCII identifiers involved. -/

def normalizeScope (projectId : String) : String :=
  ((projectId.data.map fun c => if c = '-' then '_' else c).map Char.toLower).asString

def policyName (projectId : String) : String :=
  "dstack_policy_" ++ normalizeScope projectId

def roleName (projectId : String) : String :=
  "dstack_role_" ++ normalizeScope projectId

def securityGroupName (projectId : String) : String :=
  "dstack_security_group_" ++ normalizeScope projectId

def gatewaySecurityGroupName (projectId : String) : String :=
  "dstack_gw_sg_" ++ normalizeScope projectId

/-- Name of the IAM instance profile: the code reuses the role name
(resources.py lines 93 and 100). -/
def instanceProfileName (projectId : String) : String :=
  roleName projectId

/-- Normalization as the specification claims it: lowercase with every
non-alphanumeric character replaced by an underscore.  Used only to compare
the claimed derivation with the code's actual one. -/
def specNormalizeScope (projectId : String) : String :=
  (projectId.data.map fun c =>
    if (Char.toLower c).isAlphanum then Char.toLower c else '_').asString

/-! ## Launch spec builder (`create_instances_struct`, lines 185-242) -/

structure Tag where
  key : String
  value : String
deriving Repr, DecidableEq

structure EbsSpec where
  volumeSize : Int
  volumeType : String
deriving Repr, DecidableEq

structure BlockDeviceMapping where
  deviceName : String
  ebs : EbsSpec
deriving Repr, DecidableEq

structure TagSpecification where
  resourceType : String
  tags : List Tag
deriving Repr, DecidableEq

structure SpotOptionsSpec where
  spotInstanceType : String
  instanceInterruptionBehavior : String
deriving Repr, DecidableEq

structure InstanceMarketOptionsSpec where
  marketType : String
  spotOptions : SpotOptionsSpec
deriving Repr, DecidableEq

structure NetworkInterfaceSpec where
  associatePublicIpAddress : Bool
  deviceIndex : Nat
  subnetId : String
  groups : List String
deriving Repr, DecidableEq

/-- Result dict of `create_instances_struct`; optional dict keys become
`Option` fields (`none` models key absence). -/
structure InstancesStruct where
  blockDeviceMappings : List BlockDeviceMapping
  imageId : String
  instanceType : String
  minCount : Nat
  maxCount : Nat
  userData : String
  tagSpecifications : List TagSpecification
  iamInstanceProfile : Option String
  instanceMarketOptions : Option InstanceMarketOptionsSpec
  networkInterfaces : Option (List NetworkInterfaceSpec)
  securityGroupIds : Option (List String)
deriving Repr, DecidableEq

/-- Embedding of `create_instances_struct` (resources.py lines 185-242).
The `IamInstanceProfile` key is set under Python truthiness of the arn
(absent for `None` and for the empty string); `NetworkInterfaces` and
`SecurityGroupIds` are set according to whether a subnet id was supplied. -/
def createInstancesStruct (diskSize : Int) (imageId : String) (instanceType : String)
    (iamInstanceProfileArn : Option String) (userData : String) (tags : List Tag)
    (securityGroupId : String) (spot : Bool)
    (subnetId : Option String) (allocatePublicIp : Bool) : InstancesStruct :=
  { blockDeviceMappings := [⟨"/dev/sda1", ⟨diskSize, "gp2"⟩⟩]
    imageId := imageId
    instanceType := instanceType
    minCount := 1
    maxCount := 1
    userData := userData
    tagSpecifications := [⟨"instance", tags⟩]
    iamInstanceProfile :=
      match iamInstanceProfileArn with
      | some arn => if arn == "" then none else some arn
      | none => none
    instanceMarketOptions :=
      if spot then some ⟨"spot", ⟨"one-time", "terminate"⟩⟩ else none
    networkInterfaces :=
      match subnetId with
      | some sid => some [⟨allocatePublicIp, 0, sid, [securityGroupId]⟩]
      | none => none
    securityGroupIds :=
      match subnetId with
      | some _ => none
      | none => some [securityGroupId] }

/-! ## Image resolution (`get_image_id`, lines 11-24; `get_gateway_image_id`, lines 245-259)

AWS `CreationDate` is an ISO-8601 timestamp string compared lexicographically;
it is modelled as a `Nat` carrying the same total order.  Python's
`sorted(key=..., reverse=True)` is modelled by `List.insertionSort` with the
newest-first relation; the stated properties only depend on the result being
a descending permutation, on which the two sorts agree. -/

structure Image where
  name : String
  state : String
  creationDate : Nat
  imageId : String
  ownerAlias : String
deriving Repr, DecidableEq

/-- Newest-first comparison used for the descending sort by creation date. -/
def newerFirst (a b : Image) : Prop := b.creationDate ≤ a.creationDate

instance : DecidableRel newerFirst := fun _ _ => Nat.decLe _ _

instance : IsTotal Image newerFirst :=
  ⟨fun a b => Nat.le_total b.creationDate a.creationDate⟩

instance : IsTrans Image newerFirst :=
  ⟨fun _ _ _ hab hbc => Nat.le_trans hbc hab⟩

/-- Outcomes of the image lookups: `resourceNotFound` models the raised
`ComputeResourceNotFoundError`, `indexError` models the Python `IndexError`
from indexing an empty list. -/
inductive ImageLookupError where
  | resourceNotFound
  | indexError
deriving Repr, DecidableEq

/-- Response of `describe_images` with an exact name filter. -/
def describeImagesByName (allImages : List Image) (imageName : String) : List Image :=
  allImages.filter fun i => i.name == imageName

/-- Embedding of `get_image_id` (lines 11-24).  `dstack.version.base_image`
lives outside the covered sources and is passed in as `baseImage`. -/
def getImageId (allImages : List Image) (baseImage : String) (cuda : Bool) :
    Except ImageLookupError String :=
  let imageName :=
    if cuda = false then "dstack-" ++ baseImage else "dstack-cuda-" ++ baseImage
  let response := describeImagesByName allImages imageName
  let images :=
    List.insertionSort newerFirst (response.filter fun i => i.state == "available")
  match images with
  | [] => .error .resourceNotFound
  | i :: _ => .ok i.imageId

/-- Available images matching the variant's exact name, the set the image
resolver chooses from. -/
def availImages (allImages : List Image) (baseImage : String) (cuda : Bool) : List Image :=
  (describeImagesByName allImages
      (if cuda = false then "dstack-" ++ baseImage else "dstack-cuda-" ++ baseImage)).filter
    fun i => i.state == "available"

/-- Python `str.startswith`, modelled on the underlying character lists
(`String.startsWith` itself is defined by well-founded recursion on byte
positions and does not reduce in the kernel). -/
def strStartsWith (s : String) (pat : String) : Bool :=
  pat.data.isPrefixOf s.data

/-- Name filter of the gateway image query: the wildcard pattern
`ubuntu/images/hvm-ssd/ubuntu-jammy-22.04-amd64-server-*`. -/
def gatewayImageNameMatches (i : Image) : Bool :=
  strStartsWith i.name ("ubuntu/images/hvm-ssd/ubuntu-jammy-22.04-amd64-server-")

/-- Embedding of `get_gateway_image_id` (lines 245-259).  The source indexes
`sorted(...)[0]` with no emptiness guard, so the empty case is the Python
`IndexError`, not `ComputeResourceNotFoundError`. -/
def getGatewayImageId (allImages : List Image) : Except ImageLookupError String :=
  let response :=
    allImages.filter fun i => gatewayImageNameMatches i && i.ownerAlias == "amazon"
  match List.insertionSort newerFirst response with
  | [] => .error .indexError
  | i :: _ => .ok i.imageId

/-! ## IAM provisioning (`create_role_and_policy`, lines 27-86;
`create_iam_instance_profile`, lines 89-111)

The IAM account state is a record of existing roles, policies and instance
profiles plus a log of the create/attach calls issued.  Each client call
either mutates the state or fails with a coded `ClientError`, mirroring
botocore's `e.response["Error"]["Code"]`. -/

structure ClientError where
  code : String
deriving Repr, DecidableEq

inductive IamEvent where
  | createPolicy
  | createRole
  | attachRolePolicy
  | createInstanceProfile
  | addRoleToInstanceProfile
deriving Repr, DecidableEq

structure InstanceProfile where
  name : String
  arn : String
deriving Repr, DecidableEq

structure IamState where
  roles : List String
  policies : List String
  instanceProfiles : List InstanceProfile
  rolePolicyAttachments : List (String × String)
  profileRoles : List (String × String)
  events : List IamEvent
deriving Repr, DecidableEq

def mkPolicyArn (name : String) : String := "arn:aws:iam::policy/" ++ name

def mkProfileArn (name : String) : String := "arn:aws:iam::instance-profile/" ++ name

/-- Remote `iam_client.get_role`: fails with code `NoSuchEntity` when the
role does not exist. -/
def getRoleOp (s : IamState) (name : String) : Except ClientError Unit :=
  if s.roles.contains name then .ok () else .error ⟨"NoSuchEntity"⟩

/-- Remote `iam_client.create_policy`: fails with `EntityAlreadyExists` when
a policy of that name exists, otherwise records the policy and returns its arn. -/
def createPolicyOp (s : IamState) (name : String) : Except ClientError (IamState × String) :=
  if s.policies.contains name then .error ⟨"EntityAlreadyExists"⟩
  else .ok ({ s with policies := s.policies ++ [name],
                     events := s.events ++ [.createPolicy] }, mkPolicyArn name)

/-- Remote `iam_client.create_role`. -/
def createRoleOp (s : IamState) (name : String) : Except ClientError IamState :=
  if s.roles.contains name then .error ⟨"EntityAlreadyExists"⟩
  else .ok { s with roles := s.roles ++ [name], events := s.events ++ [.createRole] }

/-- Remote `iam_client.attach_role_policy`. -/
def attachRolePolicyOp (s : IamState) (role : String) (policyArn : String) : IamState :=
  { s with rolePolicyAttachments := s.rolePolicyAttachments ++ [(role, policyArn)],
           events := s.events ++ [.attachRolePolicy] }

/-- Remote `iam_client.get_instance_profile`: fails with `NoSuchEntity` when
absent, otherwise returns the profile's arn. -/
def getInstanceProfileOp (s : IamState) (name : String) : Except ClientError String :=
  match s.instanceProfiles.find? (fun p => p.name == name) with
  | some p => .ok p.arn
  | none => .error ⟨"NoSuchEntity"⟩

/-- Remote `iam_client.create_instance_profile`. -/
def createInstanceProfileOp (s : IamState) (name : String) :
    Except ClientError (IamState × String) :=
  if (s.instanceProfiles.find? (fun p => p.name == name)).isSome then
    .error ⟨"EntityAlreadyExists"⟩
  else
    .ok ({ s with instanceProfiles := s.instanceProfiles ++ [⟨name, mkProfileArn name⟩],
                  events := s.events ++ [.createInstanceProfile] }, mkProfileArn name)

/-- Remote `iam_client.add_role_to_instance_profile`. -/
def addRoleToInstanceProfileOp (s : IamState) (profile : String) (role : String) : IamState :=
  { s with profileRoles := s.profileRoles ++ [(profile, role)],
           events := s.events ++ [.addRoleToInstanceProfile] }

/-- Embedding of `create_role_and_policy` (lines 27-86): look up the role and
short-circuit when it exists; re-raise any lookup error other than
`NoSuchEntity`; otherwise create the policy, create the role and attach the
policy.  Errors of the three create/attach calls are not caught and
propagate to the caller, exactly as in the source. -/
def createRoleAndPolicy (iam : IamState) (projectId : String) :
    Except ClientError (IamState × String) :=
  let pName := policyName projectId
  let rName := roleName projectId
  match getRoleOp iam rName with
  | .ok _ => .ok (iam, rName)
  | .error e =>
    if e.code != "NoSuchEntity" then .error e
    else
      match createPolicyOp iam pName with
      | .error e2 => .error e2
      | .ok (iam2, policyArn) =>
        match createRoleOp iam2 rName with
        | .error e3 => .error e3
        | .ok iam3 => .ok (attachRolePolicyOp iam3 rName policyArn, rName)

/-- Embedding of `create_iam_instance_profile` (lines 89-111): resolve the
role, look up the instance profile by the role name and short-circuit when
found; re-raise any lookup error other than `NoSuchEntity`; otherwise create
the profile and add the role to it.  Create-call errors propagate. -/
def createIamInstanceProfile (iam : IamState) (projectId : String) :
    Except ClientError (IamState × String) :=
  match createRoleAndPolicy iam projectId with
  | .error e => .error e
  | .ok (iam1, rName) =>
    match getInstanceProfileOp iam1 rName with
    | .ok arn => .ok (iam1, arn)
    | .error e =>
      if e.code != "NoSuchEntity" then .error e
      else
        match createInstanceProfileOp iam1 rName with
        | .error e2 => .error e2
        | .ok (iam2, instanceProfileArn) =>
          .ok (addRoleToInstanceProfileOp iam2 rName rName, instanceProfileArn)

/-! ## Security group provisioning (`create_security_group`, lines 114-182)

The EC2 account state holds the existing security groups (with their rule
lists as `Value` dicts), a counter for fresh group ids, and a log of the
mutating calls issued. -/

structure SecurityGroup where
  groupId : String
  groupName : String
  vpcId : Option String
  ipPermissions : List Value
  ipPermissionsEgress : List Value
deriving Repr

inductive Ec2Event where
  | createSecurityGroup
  | authorizeIngress
  | authorizeEgress
deriving Repr, DecidableEq

structure Ec2State where
  securityGroups : List SecurityGroup
  nextGroupNum : Nat
  events : List Ec2Event
deriving Repr

/-- Filter of `describe_security_groups`: the group name, plus the vpc id
when one was supplied (lines 120-132). -/
def matchesSecurityGroupFilters (name : String) (vpcId : Option String)
    (g : SecurityGroup) : Bool :=
  g.groupName == name &&
    match vpcId with
    | some v => g.vpcId == some v
    | none => true

def describeSecurityGroups (s : Ec2State) (name : String) (vpcId : Option String) :
    List SecurityGroup :=
  s.securityGroups.filter (matchesSecurityGroupFilters name vpcId)

def freshGroupId (s : Ec2State) : String := "sg-" ++ toString s.nextGroupNum

/-- Remote `ec2_client.create_security_group`: registers a new group with a
fresh id and no recorded rules; the returned record models the create
response, which carries no `IpPermissions` keys. -/
def createSecurityGroupCall (s : Ec2State) (name : String) (vpcId : Option String) :
    Ec2State × SecurityGroup :=
  let g : SecurityGroup := ⟨freshGroupId s, name, vpcId, [], []⟩
  ({ securityGroups := s.securityGroups ++ [g],
     nextGroupNum := s.nextGroupNum + 1,
     events := s.events ++ [.createSecurityGroup] }, g)

def appendIngressRule (gid : String) (rule : Value) (g : SecurityGroup) : SecurityGroup :=
  if g.groupId == gid then { g with ipPermissions := g.ipPermissions ++ [rule] } else g

def appendEgressRule (gid : String) (rule : Value) (g : SecurityGroup) : SecurityGroup :=
  if g.groupId == gid then
    { g with ipPermissionsEgress := g.ipPermissionsEgress ++ [rule] }
  else g

/-- Remote `ec2_client.authorize_security_group_ingress`. -/
def authorizeSecurityGroupIngress (s : Ec2State) (gid : String) (rule : Value) : Ec2State :=
  { s with securityGroups := s.securityGroups.map (appendIngressRule gid rule),
           events := s.events ++ [.authorizeIngress] }

/-- Remote `ec2_client.authorize_security_group_egress`. -/
def authorizeSecurityGroupEgress (s : Ec2State) (gid : String) (rule : Value) : Ec2State :=
  { s with securityGroups := s.securityGroups.map (appendEgressRule gid rule),
           events := s.events ++ [.authorizeEgress] }

/-- Rule lists of the local `security_group` dict held by
`create_security_group`: `security_group.get("IpPermissions", [])` and
`security_group.get("IpPermissionsEgress", [])`. -/
structure SecurityGroupView where
  ipPermissions : List Value
  ipPermissionsEgress : List Value
deriving Repr

/-- Embedding of `_add_ingress_security_group_rule_if_missing` (lines 366-378):
the existence check runs against the locally held group record, not against a
re-fetched one. -/
def addIngressSecurityGroupRuleIfMissing (s : Ec2State) (view : SecurityGroupView)
    (securityGroupId : String) (rule : Value) : Ec2State × Bool :=
  if ruleExists rule view.ipPermissions then (s, false)
  else (authorizeSecurityGroupIngress s securityGroupId rule, true)

/-- Embedding of `_add_egress_security_group_rule_if_missing` (lines 381-393). -/
def addEgressSecurityGroupRuleIfMissing (s : Ec2State) (view : SecurityGroupView)
    (securityGroupId : String) (rule : Value) : Ec2State × Bool :=
  if ruleExists rule view.ipPermissionsEgress then (s, false)
  else (authorizeSecurityGroupEgress s securityGroupId rule, true)

/-- SSH-from-anywhere ingress rule (lines 160-165). -/
def sshIngressRule : Value :=
  .dict [("FromPort", .int 22), ("ToPort", .int 22), ("IpProtocol", .str "tcp"),
         ("IpRanges", .list [.dict [("CidrIp", .str "0.0.0.0/0")]])]

/-- Self-referencing all-protocol ingress rule (lines 171-174). -/
def selfReferenceIngressRule (securityGroupId : String) : Value :=
  .dict [("IpProtocol", .str "-1"),
         ("UserIdGroupPairs", .list [.dict [("GroupId", .str securityGroupId)]])]

/-- All-protocol egress rule (line 180). -/
def allTrafficEgressRule : Value := .dict [("IpProtocol", .str "-1")]

/-- Embedding of `create_security_group` (lines 114-182): find the group by
deterministic name (optionally vpc-scoped) or create it, then ensure the
three fixed rules, each checked against the locally held group record. -/
def createSecurityGroup (s0 : Ec2State) (projectId : String) (vpcId : Option String) :
    Ec2State × String :=
  let name := securityGroupName projectId
  let described := describeSecurityGroups s0 name vpcId
  let found :=
    match described with
    | g :: _ =>
      (s0, (⟨g.ipPermissions, g.ipPermissionsEgress⟩ : SecurityGroupView), g.groupId)
    | [] =>
      let created := createSecurityGroupCall s0 name vpcId
      (created.1, (⟨[], []⟩ : SecurityGroupView), created.2.groupId)
  let s1 := found.1
  let view := found.2.1
  let securityGroupId := found.2.2
  let s2 := (addIngressSecurityGroupRuleIfMissing s1 view securityGroupId sshIngressRule).1
  let s3 := (addIngressSecurityGroupRuleIfMissing s2 view securityGroupId
      (selfReferenceIngressRule securityGroupId)).1
  let s4 := (addEgressSecurityGroupRuleIfMissing s3 view securityGroupId
      allTrafficEgressRule).1
  (s4, securityGroupId)

/-! ## Network topology (`get_subnet_id_for_vpc`, lines 335-363;
`_is_public_subnet`, lines 422-456; `_is_subnet_behind_nat`, lines 459-490) -/

structure RouteEntry where
  gatewayId : Option String
  natGatewayId : Option String
deriving Repr, DecidableEq

structure RouteTableAssociation where
  subnetId : Option String
  main : Bool
deriving Repr, DecidableEq

structure RouteTable where
  routeTableId : String
  vpcId : String
  associations : List RouteTableAssociation
  routes : List RouteEntry
deriving Repr, DecidableEq

structure Subnet where
  subnetId : String
  vpcId : String
deriving Repr, DecidableEq

structure NetworkState where
  subnets : List Subnet
  routeTables : List RouteTable
deriving Repr, DecidableEq

/-- Response of `describe_route_tables` filtered by
`association.subnet-id`. -/
def describeRouteTablesBySubnetAssociation (net : NetworkState) (subnetId : String) :
    List RouteTable :=
  net.routeTables.filter fun rt => rt.associations.any fun a => a.subnetId == some subnetId

/-- Response of `describe_route_tables` filtered by `association.main=true`
and `vpc-id`. -/
def describeMainRouteTables (net : NetworkState) (vpcId : String) : List RouteTable :=
  net.routeTables.filter fun rt => (rt.associations.any fun a => a.main) && rt.vpcId == vpcId

/-- Test of `"GatewayId" in route and route["GatewayId"].startswith("igw-")`. -/
def routeUsesInternetGateway (route : RouteEntry) : Bool :=
  match route.gatewayId with
  | some gid => strStartsWith gid ("igw-")
  | none => false

/-- Test of `"NatGatewayId" in route and route["NatGatewayId"].startswith("nat-")`. -/
def routeUsesNatGateway (route : RouteEntry) : Bool :=
  match route.natGatewayId with
  | some ngid => strStartsWith ngid ("nat-")
  | none => false

/-- Embedding of `_is_public_subnet` (lines 422-456): scan the explicitly
associated route tables for an internet-gateway route; when explicit
associations exist but carry no such route, answer false without consulting
the main table; otherwise fall back to the VPC's main route table. -/
def isPublicSubnet (net : NetworkState) (vpcId : String) (subnetId : String) : Bool :=
  let explicitTables := describeRouteTablesBySubnetAssociation net subnetId
  if explicitTables.any (fun rt => rt.routes.any routeUsesInternetGateway) then true
  else if explicitTables.length > 0 then false
  else
    (describeMainRouteTables net vpcId).any fun rt =>
      rt.routes.any routeUsesInternetGateway

/-- Embedding of `_is_subnet_behind_nat` (lines 459-490): same scan pattern
with NAT-gateway routes. -/
def isSubnetBehindNat (net : NetworkState) (vpcId : String) (subnetId : String) : Bool :=
  let explicitTables := describeRouteTablesBySubnetAssociation net subnetId
  if explicitTables.any (fun rt => rt.routes.any routeUsesNatGateway) then true
  else if explicitTables.length > 0 then false
  else
    (describeMainRouteTables net vpcId).any fun rt =>
      rt.routes.any routeUsesNatGateway

/-- Response of `describe_subnets` filtered by `vpc-id` (lines 414-419). -/
def getSubnetsByVpcId (net : NetworkState) (vpcId : String) : List Subnet :=
  net.subnets.filter fun s => s.vpcId == vpcId

/-- Embedding of `get_subnet_id_for_vpc` (lines 335-363): scan the VPC's
subnets in listing order and return the first that is public (when
`allocatePublicIp`) or behind a NAT (otherwise). -/
def getSubnetIdForVpc (net : NetworkState) (vpcId : String) (allocatePublicIp : Bool) :
    Option String :=
  let subnets := getSubnetsByVpcId net vpcId
  if subnets.length = 0 then none
  else
    (subnets.find? fun subnet =>
        if allocatePublicIp then isPublicSubnet net vpcId subnet.subnetId
        else isSubnetBehindNat net vpcId subnet.subnetId).map
      fun subnet => subnet.subnetId

/-- Route tables governing a subnet, as the specification describes the
classification: the explicitly associated tables when any exist, else the
VPC's main table. -/
def governingRouteTables (net : NetworkState) (vpcId : String) (subnetId : String) :
    List RouteTable :=
  let explicitTables := describeRouteTablesBySubnetAssociation net subnetId
  if explicitTables.isEmpty then describeMainRouteTables net vpcId else explicitTables

/-- Specification-level classification: a subnet is public when some
governing route table has an internet-gateway route. -/
def specSubnetIsPublic (net : NetworkState) (vpcId : String) (subnetId : String) : Bool :=
  (governingRouteTables net vpcId subnetId).any fun rt =>
    rt.routes.any routeUsesInternetGateway

/-- Specification-level classification: a subnet is NAT-backed when some
governing route table has a NAT-gateway route. -/
def specSubnetIsNatBacked (net : NetworkState) (vpcId : String) (subnetId : String) : Bool :=
  (governingRouteTables net vpcId subnetId).any fun rt =>
    rt.routes.any routeUsesNatGateway

/-! ## Concrete states used by counterexamples and witnesses -/

/-- Route table carrying both an internet-gateway route and a NAT-gateway
route, explicitly associated with subnet `subnet-1`. -/
def bothRoutesTable : RouteTable :=
  ⟨"rtb-1", "vpc-1", [⟨some "subnet-1", false⟩],
   [⟨some "igw-1", none⟩, ⟨none, some "nat-1"⟩]⟩

/-- Network with a single subnet whose explicit route table has both an
internet-gateway route and a NAT-gateway route. -/
def dualRouteNetwork : NetworkState :=
  ⟨[⟨"subnet-1", "vpc-1"⟩], [bothRoutesTable]⟩

/-- IAM account where the policy derived from scope `proj-a` already exists
but the role does not: the state a losing concurrent provisioner observes. -/
def policyOnlyIamState : IamState :=
  ⟨[], ["dstack_policy_proj_a"], [], [], [], []⟩

/-- Empty IAM account. -/
def emptyIamState : IamState := ⟨[], [], [], [], [], []⟩

/-- Empty EC2 account. -/
def emptyEc2State : Ec2State := ⟨[], 0, []⟩

/-! ## Theorems -/

/-- C1: for every call to `create_instances_struct`, a supplied subnet id
yields exactly the subnet-scoped `NetworkInterfaces` entry (naming that
subnet, the public-IP flag and the security group) with no instance-level
`SecurityGroupIds`; no subnet id yields exactly `SecurityGroupIds`; the two
fields are never both present. -/
theorem instancesStruct_network_exclusive :
    ∀ (diskSize : Int) (imageId instanceType : String) (arn : Option String)
      (userData : String) (tags : List Tag) (securityGroupId : String) (spot : Bool)
      (subnetId : Option String) (allocatePublicIp : Bool),
      (∀ sid, subnetId = some sid →
          (createInstancesStruct diskSize imageId instanceType arn userData tags
              securityGroupId spot subnetId allocatePublicIp).networkInterfaces =
            some [⟨allocatePublicIp, 0, sid, [securityGroupId]⟩] ∧
          (createInstancesStruct diskSize imageId instanceType arn userData tags
              securityGroupId spot subnetId allocatePublicIp).securityGroupIds = none) ∧
      (subnetId = none →
          (createInstancesStruct diskSize imageId instanceType arn userData tags
              securityGroupId spot subnetId allocatePublicIp).securityGroupIds =
            some [securityGroupId] ∧
          (createInstancesStruct diskSize imageId instanceType arn userData tags
              securityGroupId spot subnetId allocatePublicIp).networkInterfaces = none) ∧
      ¬((createInstancesStruct diskSize imageId instanceType arn userData tags
            securityGroupId spot subnetId allocatePublicIp).networkInterfaces ≠ none ∧
        (createInstancesStruct diskSize imageId instanceType arn userData tags
            securityGroupId spot subnetId allocatePublicIp).securityGroupIds ≠ none) := by
  intro diskSize imageId instanceType arn userData tags securityGroupId spot subnetId pub
  cases subnetId <;> simp [createInstancesStruct]

/-- Witness for C1: both branches of the builder evaluated at concrete
arguments through the theorem itself. -/
theorem instancesStruct_network_exclusive_witness :
    (createInstancesStruct 100 ("ami-1") ("t2.micro") none ("ud") [] ("sg-1") false
        (some ("subnet-1")) true).networkInterfaces =
      some [⟨true, 0, "subnet-1", ["sg-1"]⟩] ∧
    (createInstancesStruct 100 ("ami-1") ("t2.micro") none ("ud") [] ("sg-1") false
        none true).securityGroupIds = some ["sg-1"] :=
  ⟨((instancesStruct_network_exclusive 100 ("ami-1") ("t2.micro") none ("ud") [] ("sg-1")
        false (some ("subnet-1")) true).1 ("subnet-1") rfl).1,
   ((instancesStruct_network_exclusive 100 ("ami-1") ("t2.micro") none ("ud") [] ("sg-1")
        false none true).2.1 rfl).1⟩

/-- C8 counterexample: the code does not replace every non-alphanumeric
character by an underscore — a dot in the scope survives, so the derived
security-group name of `proj.a` differs from the claimed normalized form. -/
theorem nameDerivation_counterexample :
    ¬(securityGroupName ("proj.a") =
        "dstack_security_group_" ++ specNormalizeScope ("proj.a")) := by
  decide

/-- C8 amended: every derived resource name is a fixed component prefix
followed by the scope with each hyphen replaced by an underscore and then
lowercased — a pure deterministic function of the scope alone; other
non-alphanumeric characters are kept as they are. -/
theorem nameDerivation_amended :
    ∀ scope : String,
      policyName scope = "dstack_policy_" ++ normalizeScope scope ∧
      roleName scope = "dstack_role_" ++ normalizeScope scope ∧
      instanceProfileName scope = "dstack_role_" ++ normalizeScope scope ∧
      securityGroupName scope = "dstack_security_group_" ++ normalizeScope scope ∧
      gatewaySecurityGroupName scope = "dstack_gw_sg_" ++ normalizeScope scope ∧
      (normalizeScope scope).data =
        scope.data.map fun c => Char.toLower (if c = '-' then '_' else c) := by
  intro scope
  refine ⟨rfl, rfl, rfl, rfl, rfl, ?_⟩
  simp only [normalizeScope, List.map_map]
  rfl

/-- C10: whenever the gateway image query matches zero images,
`get_gateway_image_id` hits the unguarded `[0]` index on the empty sorted
list — the Python `IndexError` — rather than raising the typed
`ResourceNotFound` that `get_image_id` raises. -/
theorem gatewayImage_empty_indexError :
    ∀ allImages : List Image,
      allImages.filter (fun i => gatewayImageNameMatches i && i.ownerAlias == "amazon")
          = [] →
      getGatewayImageId allImages = .error .indexError ∧
      getGatewayImageId allImages ≠ .error .resourceNotFound := by
  intro allImages h
  simp [getGatewayImageId, h, List.insertionSort]

/-- Witness for C10: the empty remote image listing. -/
theorem gatewayImage_empty_indexError_witness :
    getGatewayImageId [] = .error .indexError ∧
    getGatewayImageId [] ≠ .error .resourceNotFound :=
  gatewayImage_empty_indexError [] rfl

/-- C4 counterexample: in a state where the scope's policy already exists but
the role does not (the state a losing concurrent provisioner observes),
`create_policy` fails with `EntityAlreadyExists` and the error propagates
directly out of `create_iam_instance_profile`: no re-lookup happens. -/
theorem alreadyExists_propagates_counterexample :
    createIamInstanceProfile policyOnlyIamState ("proj-a") =
      .error ⟨"EntityAlreadyExists"⟩ := by
  rfl

/-- C4 amended: when the role derived from the scope does not exist but the
derived policy does, the `EntityAlreadyExists` failure of `create_policy`
propagates directly to the caller of `create_iam_instance_profile`; only the
`NoSuchEntity` outcome of the two lookups is handled. -/
theorem alreadyExists_propagates :
    ∀ (iam : IamState) (projectId : String),
      iam.roles.contains (roleName projectId) = false →
      iam.policies.contains (policyName projectId) = true →
      createIamInstanceProfile iam projectId = .error ⟨"EntityAlreadyExists"⟩ := by
  intro iam projectId hrole hpolicy
  have hr : roleName projectId ∉ iam.roles := by simpa using hrole
  have hp : policyName projectId ∈ iam.policies := by simpa using hpolicy
  simp [createIamInstanceProfile, createRoleAndPolicy, getRoleOp, createPolicyOp, hr, hp]

/-- Witness for C4's amended theorem: a concrete account with the policy of
scope `x` present and its role absent. -/
theorem alreadyExists_propagates_witness :
    createIamInstanceProfile ⟨[], ["dstack_policy_x"], [], [], [], []⟩ ("x") =
      .error ⟨"EntityAlreadyExists"⟩ :=
  alreadyExists_propagates ⟨[], ["dstack_policy_x"], [], [], [], []⟩ ("x")
    (by rfl) (by rfl)

/-- C6 counterexample: a subnet whose explicit route table carries both an
internet-gateway route and a NAT-gateway route is classified public, yet
`get_subnet_id_for_vpc` with `allocate_public_ip=False` still returns it. -/
theorem natClassification_counterexample :
    specSubnetIsPublic dualRouteNetwork ("vpc-1") ("subnet-1") = true ∧
    isSubnetBehindNat dualRouteNetwork ("vpc-1") ("subnet-1") = true ∧
    getSubnetIdForVpc dualRouteNetwork ("vpc-1") false = some ("subnet-1") := by
  decide

/-- C6 amended: the two classifications are not exclusive — any NAT-gateway
route in a subnet's explicitly associated route tables makes
`_is_subnet_behind_nat` answer true, regardless of internet-gateway routes in
the same tables, so resolving with `want_public=false` can return a public
subnet. -/
theorem natClassification_amended :
    ∀ (net : NetworkState) (vpcId subnetId : String),
      ((describeRouteTablesBySubnetAssociation net subnetId).any
          fun rt => rt.routes.any routeUsesNatGateway) = true →
      isSubnetBehindNat net vpcId subnetId = true := by
  intro net vpcId subnetId h
  simp [isSubnetBehindNat, h]

/-- Witness for C6's amended theorem: the dual-route network. -/
theorem natClassification_amended_witness :
    isSubnetBehindNat dualRouteNetwork ("vpc-1") ("subnet-1") = true :=
  natClassification_amended dualRouteNetwork ("vpc-1") ("subnet-1") (by decide)

/-- Coincidence of the code's public-subnet scan with the spec-level
governing-table classification. -/
theorem isPublicSubnet_eq_spec :
    ∀ (net : NetworkState) (vpcId subnetId : String),
      isPublicSubnet net vpcId subnetId = specSubnetIsPublic net vpcId subnetId := by
  intro net vpcId subnetId
  simp only [isPublicSubnet, specSubnetIsPublic, governingRouteTables]
  cases hE : describeRouteTablesBySubnetAssociation net subnetId with
  | nil => simp
  | cons rt rest =>
    cases hany : (rt :: rest).any fun t => t.routes.any routeUsesInternetGateway <;>
      simp [hany]

/-- Coincidence of the code's NAT-backed scan with the spec-level
governing-table classification. -/
theorem isSubnetBehindNat_eq_spec :
    ∀ (net : NetworkState) (vpcId subnetId : String),
      isSubnetBehindNat net vpcId subnetId = specSubnetIsNatBacked net vpcId subnetId := by
  intro net vpcId subnetId
  simp only [isSubnetBehindNat, specSubnetIsNatBacked, governingRouteTables]
  cases hE : describeRouteTablesBySubnetAssociation net subnetId with
  | nil => simp
  | cons rt rest =>
    cases hany : (rt :: rest).any fun t => t.routes.any routeUsesNatGateway <;>
      simp [hany]

/-- C3: `get_subnet_id_for_vpc` returns the id of the first subnet of the VPC
in listing order whose classification matches the request, where a subnet is
classified by its explicitly associated route tables first, falling back to
the VPC's main table only when it has no explicit association; it returns
none when no subnet matches or the VPC has zero subnets. -/
theorem resolveSubnet_first_match :
    ∀ (net : NetworkState) (vpcId : String) (wantPublic : Bool),
      getSubnetIdForVpc net vpcId wantPublic =
        ((getSubnetsByVpcId net vpcId).find? fun subnet =>
            if wantPublic then specSubnetIsPublic net vpcId subnet.subnetId
            else specSubnetIsNatBacked net vpcId subnet.subnetId).map
          fun subnet => subnet.subnetId := by
  intro net vpcId wantPublic
  simp only [getSubnetIdForVpc, isPublicSubnet_eq_spec, isSubnetBehindNat_eq_spec]
  by_cases h : (getSubnetsByVpcId net vpcId).length = 0
  · have hnil : getSubnetsByVpcId net vpcId = [] := List.eq_nil_of_length_eq_zero h
    simp [h, hnil]
  · simp [h]

/-- Characterization of `isSubsetPairs` as the `all`-over-items form of the
Python source line. -/
theorem isSubsetPairs_eq_all :
    ∀ kvs kvs2 : List (String × Value),
      isSubsetPairs kvs kvs2 =
        kvs.all fun kv =>
          match kvs2.lookup kv.1 with
          | some v2 => isSubset kv.2 v2
          | none => false := by
  intro kvs kvs2
  induction kvs with
  | nil => rfl
  | cons kv rest ih => cases kv with
    | mk k v => simp [isSubsetPairs, ih]

/-- Characterization of `isSubsetListExact` as the length-check-and-zip form
of the Python source line. -/
theorem isSubsetListExact_eq_zip :
    ∀ xs ys : List Value,
      isSubsetListExact xs ys =
        (decide (xs.length = ys.length) && (xs.zip ys).all fun p => isSubset p.1 p.2) := by
  intro xs
  induction xs with
  | nil => intro ys; cases ys <;> simp [isSubsetListExact]
  | cons x xs ih =>
    intro ys
    cases ys with
    | nil => simp [isSubsetListExact]
    | cons y ys =>
      show (isSubset x y && isSubsetListExact xs ys) = _
      rw [ih ys]
      cases hxy : isSubset x y <;>
        cases hlen : decide (xs.length = ys.length) <;>
          simp_all [List.zip_cons_cons, Nat.succ_inj]

/-- First-match lookup finds the value of any binding whose key list has no
duplicates. -/
theorem lookup_eq_of_nodup :
    ∀ (kvs : List (String × Value)) (k : String) (v : Value),
      (kvs.map Prod.fst).Nodup → (k, v) ∈ kvs → kvs.lookup k = some v := by
  intro kvs
  induction kvs with
  | nil => intro k v _ hm; cases hm
  | cons kv rest ih =>
    intro k v hnd hm
    cases kv with
    | mk k1 v1 =>
      rw [List.lookup_cons]
      rcases List.mem_cons.mp hm with heq | hm2
      · cases heq
        simp
      · rw [List.map_cons, List.nodup_cons] at hnd
        have hk : k ≠ k1 := by
          intro he
          have hk1mem : k1 ∈ rest.map Prod.fst := by
            subst he
            exact List.mem_map.mpr ⟨(k, v), hm2, rfl⟩
          exact hnd.1 hk1mem
        have hbeq : (k == k1) = false := by simp [hk]
        rw [hbeq]
        exact ih k v hnd.2 hm2

mutual

/-- Reflexivity of the matcher on well-formed values. -/
theorem isSubset_rfl : ∀ v : Value, wfValue v = true → isSubset v v = true
  | .str s, _ => by
    have hb : valueBeq (.str s) (.str s) = true := by simp [valueBeq]
    exact hb
  | .int n, _ => by
    have hb : valueBeq (.int n) (.int n) = true := by simp [valueBeq]
    exact hb
  | .list xs, h => by
    have hl : wfValueList xs = true := h
    exact isSubsetListExact_rfl xs hl
  | .dict kvs, h => by
    have h2 : (decide ((kvs.map Prod.fst).Nodup) && wfValuePairs kvs) = true := h
    obtain ⟨hnd, hwp⟩ := Bool.and_eq_true_iff.mp h2
    exact isSubsetPairs_rfl_aux kvs kvs hwp
      (fun k v hm => lookup_eq_of_nodup kvs k v (of_decide_eq_true hnd) hm)

theorem isSubsetListExact_rfl :
    ∀ xs : List Value, wfValueList xs = true → isSubsetListExact xs xs = true
  | [], _ => rfl
  | x :: xs, h => by
    have h2 : (wfValue x && wfValueList xs) = true := h
    obtain ⟨hx, hxs⟩ := Bool.and_eq_true_iff.mp h2
    show (isSubset x x && isSubsetListExact xs xs) = true
    rw [isSubset_rfl x hx, isSubsetListExact_rfl xs hxs]
    rfl

theorem isSubsetPairs_rfl_aux :
    ∀ (kvs full : List (String × Value)), wfValuePairs kvs = true →
      (∀ k v, (k, v) ∈ kvs → full.lookup k = some v) →
      isSubsetPairs kvs full = true
  | [], _, _, _ => rfl
  | (k, v) :: rest, full, h, hlk => by
    have h2 : (wfValue v && wfValuePairs rest) = true := h
    obtain ⟨hv, hrest⟩ := Bool.and_eq_true_iff.mp h2
    show ((match full.lookup k with
           | some v2 => isSubset v v2
           | none => false) && isSubsetPairs rest full) = true
    rw [hlk k v (List.mem_cons_self _ _)]
    simp only []
    rw [isSubset_rfl v hv,
      isSubsetPairs_rfl_aux rest full hrest
        (fun k2 v2 hm => hlk k2 v2 (List.mem_cons_of_mem _ hm))]
    rfl

end

/-- Adding a binding for a key outside the pattern keys preserves pairwise
dict satisfaction. -/
theorem isSubsetPairs_insert_unrelated :
    ∀ (kvs kvs2 : List (String × Value)) (k : String) (v : Value),
      isSubsetPairs kvs kvs2 = true → k ∉ kvs.map Prod.fst →
      isSubsetPairs kvs ((k, v) :: kvs2) = true := by
  intro kvs
  induction kvs with
  | nil => intro kvs2 k v _ _; rfl
  | cons kv rest ih =>
    intro kvs2 k v h hk
    cases kv with
    | mk k1 v1 =>
      have h2 : ((match kvs2.lookup k1 with
                  | some v2 => isSubset v1 v2
                  | none => false) && isSubsetPairs rest kvs2) = true := h
      obtain ⟨ha, hb⟩ := Bool.and_eq_true_iff.mp h2
      have hne : (k1 == k) = false := by
        have : k1 ≠ k := by
          intro he
          exact hk (by simp [he.symm])
        simp [this]
      show ((match ((k, v) :: kvs2).lookup k1 with
             | some v2 => isSubset v1 v2
             | none => false) && isSubsetPairs rest ((k, v) :: kvs2)) = true
      rw [List.lookup_cons, hne]
      have hrest : isSubsetPairs rest ((k, v) :: kvs2) = true :=
        ih kvs2 k v hb (fun hm => hk (List.mem_cons_of_mem _ hm))
      rw [hrest]
      simpa using ha

/-- C9: the matcher is reflexive on (well-formed, duplicate-key-free) values,
monotonic under extension of the actual mapping by keys outside the pattern,
and rejects sequences of different lengths even when all zipped elements
individually match. -/
theorem matcher_reflexive_monotonic :
    (∀ v : Value, wfValue v = true → isSubset v v = true) ∧
    (∀ (pat : Value) (kvs2 : List (String × Value)) (k : String) (v : Value),
        isSubset pat (.dict kvs2) = true → k ∉ patternKeys pat →
        isSubset pat (.dict ((k, v) :: kvs2)) = true) ∧
    (∀ xs ys : List Value, xs.length ≠ ys.length →
        (∀ p ∈ xs.zip ys, isSubset p.1 p.2 = true) →
        isSubset (.list xs) (.list ys) = false) := by
  refine ⟨isSubset_rfl, ?_, ?_⟩
  · intro pat kvs2 k v h hk
    cases pat with
    | dict kvs =>
      exact isSubsetPairs_insert_unrelated kvs kvs2 k v h hk
    | str s =>
      have hb : valueBeq (.str s) (.dict kvs2) = true := h
      simp [valueBeq] at hb
    | int n =>
      have hb : valueBeq (.int n) (.dict kvs2) = true := h
      simp [valueBeq] at hb
    | list xs =>
      have hb : valueBeq (.list xs) (.dict kvs2) = true := h
      simp [valueBeq] at hb
  · intro xs ys hlen _
    show isSubsetListExact xs ys = false
    rw [isSubsetListExact_eq_zip]
    simp [hlen]

/-- Witness for C9: reflexivity, extension and length rejection at concrete
values. -/
theorem matcher_reflexive_monotonic_witness :
    isSubset (.dict [("a", .int 1)]) (.dict [("a", .int 1)]) = true ∧
    isSubset (.dict [("a", .int 1)]) (.dict [("b", .int 2), ("a", .int 1)]) = true ∧
    isSubset (.list [.int 1]) (.list []) = false :=
  ⟨matcher_reflexive_monotonic.1 (.dict [("a", .int 1)]) (by decide),
   matcher_reflexive_monotonic.2.1 (.dict [("a", .int 1)]) [("a", .int 1)] ("b") (.int 2)
     (by decide) (by decide),
   matcher_reflexive_monotonic.2.2 [.int 1] [] (by decide) (by simp)⟩

mutual

/-- Soundness of the matcher for the specification-level relation. -/
theorem satisfies_of_isSubset : ∀ a b : Value, isSubset a b = true → Satisfies a b
  | .str s, .str t, h => by
    have hb : (s == t) = true := h
    have : s = t := by simpa using hb
    subst this
    exact .str s
  | .int a, .int b, h => by
    have hb : (a == b) = true := h
    have : a = b := by simpa using hb
    subst this
    exact .int a
  | .dict kvs, .dict kvs2, h =>
    Satisfies.dict
      (fun k v hm => (satisfiesPairs_of_isSubsetPairs kvs kvs2 h k v hm).1)
      (fun k v hm => (satisfiesPairs_of_isSubsetPairs kvs kvs2 h k v hm).2)
  | .list xs, .list ys, h =>
    Satisfies.list (satisfiesList_of_isSubsetListExact xs ys h).1
      (satisfiesList_of_isSubsetListExact xs ys h).2
  | .str _, .int _, h => Bool.noConfusion h
  | .str _, .list _, h => Bool.noConfusion h
  | .str _, .dict _, h => Bool.noConfusion h
  | .int _, .str _, h => Bool.noConfusion h
  | .int _, .list _, h => Bool.noConfusion h
  | .int _, .dict _, h => Bool.noConfusion h
  | .list _, .str _, h => Bool.noConfusion h
  | .list _, .int _, h => Bool.noConfusion h
  | .list _, .dict _, h => Bool.noConfusion h
  | .dict _, .str _, h => Bool.noConfusion h
  | .dict _, .int _, h => Bool.noConfusion h
  | .dict _, .list _, h => Bool.noConfusion h

theorem satisfiesPairs_of_isSubsetPairs :
    ∀ (kvs kvs2 : List (String × Value)), isSubsetPairs kvs kvs2 = true →
      ∀ k v, (k, v) ∈ kvs →
        (kvs2.lookup k).isSome = true ∧
        ∀ v2, kvs2.lookup k = some v2 → Satisfies v v2
  | [], _, _, k, v, hm => absurd hm (List.not_mem_nil _)
  | (k1, v1) :: rest, kvs2, h, k, v, hm => by
    have h2 : ((match kvs2.lookup k1 with
                | some v2 => isSubset v1 v2
                | none => false) && isSubsetPairs rest kvs2) = true := h
    obtain ⟨ha, hb⟩ := Bool.and_eq_true_iff.mp h2
    rcases List.mem_cons.mp hm with heq | hm2
    · obtain ⟨hk, hv⟩ : k = k1 ∧ v = v1 := by
        injection heq with h1 h2
        exact ⟨h1, h2⟩
      subst hk
      subst hv
      cases hcase : kvs2.lookup k with
      | none =>
        rw [hcase] at ha
        exact Bool.noConfusion ha
      | some v2 =>
        rw [hcase] at ha
        refine ⟨by simp, ?_⟩
        intro v3 hv3
        injection hv3 with hv3
        subst hv3
        exact satisfies_of_isSubset v _ ha
    · exact satisfiesPairs_of_isSubsetPairs rest kvs2 hb k v hm2

theorem satisfiesList_of_isSubsetListExact :
    ∀ xs ys : List Value, isSubsetListExact xs ys = true →
      xs.length = ys.length ∧ ∀ p ∈ xs.zip ys, Satisfies p.1 p.2
  | [], [], _ => ⟨rfl, by simp⟩
  | [], _ :: _, h => Bool.noConfusion h
  | _ :: _, [], h => Bool.noConfusion h
  | x :: xs, y :: ys, h => by
    have h2 : (isSubset x y && isSubsetListExact xs ys) = true := h
    obtain ⟨ha, hb⟩ := Bool.and_eq_true_iff.mp h2
    obtain ⟨hlen, hall⟩ := satisfiesList_of_isSubsetListExact xs ys hb
    refine ⟨by simp [hlen], ?_⟩
    intro p hp
    rw [List.zip_cons_cons] at hp
    rcases List.mem_cons.mp hp with heq | hp2
    · subst heq
      exact satisfies_of_isSubset x y ha
    · exact hall p hp2

end

mutual

/-- Completeness of the matcher for the specification-level relation. -/
theorem isSubset_of_satisfies : ∀ a b : Value, Satisfies a b → isSubset a b = true
  | .str s, b, h => by
    cases h
    have hb : (s == s) = true := by simp
    exact hb
  | .int n, b, h => by
    cases h
    have hb : (n == n) = true := by simp
    exact hb
  | .dict kvs, b, h => by
    cases h with
    | dict hsome hrec =>
      exact isSubsetPairs_of_parts kvs _ hsome hrec
  | .list xs, b, h => by
    cases h with
    | list hlen hall =>
      exact isSubsetListExact_of_parts xs _ hlen hall

theorem isSubsetPairs_of_parts :
    ∀ (kvs kvs2 : List (String × Value)),
      (∀ k v, (k, v) ∈ kvs → (kvs2.lookup k).isSome = true) →
      (∀ k v, (k, v) ∈ kvs → ∀ v2, kvs2.lookup k = some v2 → Satisfies v v2) →
      isSubsetPairs kvs kvs2 = true
  | [], _, _, _ => rfl
  | (k1, v1) :: rest, kvs2, hsome, hrec => by
    have hhead := hsome k1 v1 (List.mem_cons_self _ _)
    cases hcase : kvs2.lookup k1 with
    | none => rw [hcase] at hhead; exact absurd hhead (by simp)
    | some v2 =>
      have hs : Satisfies v1 v2 := hrec k1 v1 (List.mem_cons_self _ _) v2 hcase
      have h1 : isSubset v1 v2 = true := isSubset_of_satisfies v1 v2 hs
      have h2 : isSubsetPairs rest kvs2 = true :=
        isSubsetPairs_of_parts rest kvs2
          (fun k v hm => hsome k v (List.mem_cons_of_mem _ hm))
          (fun k v hm => hrec k v (List.mem_cons_of_mem _ hm))
      show ((match kvs2.lookup k1 with
             | some v2 => isSubset v1 v2
             | none => false) && isSubsetPairs rest kvs2) = true
      rw [hcase]
      simp [h1, h2]

theorem isSubsetListExact_of_parts :
    ∀ xs ys : List Value, xs.length = ys.length →
      (∀ p ∈ xs.zip ys, Satisfies p.1 p.2) → isSubsetListExact xs ys = true
  | [], [], _, _ => rfl
  | [], _ :: _, hlen, _ => by simp at hlen
  | _ :: _, [], hlen, _ => by simp at hlen
  | x :: xs, y :: ys, hlen, hall => by
    have h1 : isSubset x y = true :=
      isSubset_of_satisfies x y
        (hall (x, y) (by rw [List.zip_cons_cons]; exact List.mem_cons_self _ _))
    have h2 : isSubsetListExact xs ys = true :=
      isSubsetListExact_of_parts xs ys (by simpa using hlen)
        (fun p hp => hall p (by rw [List.zip_cons_cons]; exact List.mem_cons_of_mem _ hp))
    show (isSubset x y && isSubsetListExact xs ys) = true
    rw [h1, h2]
    rfl

end

/-- C2: `_is_subset(pattern, actual)` returns true exactly when the
specification-level satisfaction relation holds — mapping patterns require
every pattern key to occur in the actual mapping with a recursively
satisfying value (extra actual keys ignored), sequence patterns require equal
lengths with pairwise satisfaction, and every other case requires exact
equality.  Totality with no side effects is witnessed by `isSubset` being a
plain terminating function. -/
theorem matcher_satisfies_iff :
    ∀ a b : Value, isSubset a b = true ↔ Satisfies a b :=
  fun a b => ⟨satisfies_of_isSubset a b, isSubset_of_satisfies a b⟩

/-- Witness for C2: both directions exercised at a concrete mapping pair. -/
theorem matcher_satisfies_iff_witness :
    Satisfies (.dict [("a", .int 1)]) (.dict [("b", .int 2), ("a", .int 1)]) :=
  (matcher_satisfies_iff (.dict [("a", .int 1)]) (.dict [("b", .int 2), ("a", .int 1)])).mp
    (by decide)

/-- C5: `get_image_id` fails with `ResourceNotFound` exactly when no image in
"available" state matches the variant's exact name, and any returned id
belongs to an available name-matching image whose creation timestamp is
maximal among them — images in other states are ignored even when newer. -/
theorem resolveImage_latest_available :
    ∀ (allImages : List Image) (baseImage : String) (cuda : Bool),
      (getImageId allImages baseImage cuda = .error .resourceNotFound ↔
        availImages allImages baseImage cuda = []) ∧
      (∀ r, getImageId allImages baseImage cuda = .ok r →
        ∃ i, i ∈ availImages allImages baseImage cuda ∧ r = i.imageId ∧
          ∀ j ∈ availImages allImages baseImage cuda,
            j.creationDate ≤ i.creationDate) := by
  intro allImages baseImage cuda
  have hdef : getImageId allImages baseImage cuda =
      (match List.insertionSort newerFirst (availImages allImages baseImage cuda) with
       | [] => .error .resourceNotFound
       | i :: _ => .ok i.imageId) := rfl
  cases hsort : List.insertionSort newerFirst (availImages allImages baseImage cuda) with
  | nil =>
    have hperm := List.perm_insertionSort newerFirst (availImages allImages baseImage cuda)
    rw [hsort] at hperm
    have hnil : availImages allImages baseImage cuda = [] := hperm.symm.eq_nil
    constructor
    · rw [hdef, hsort]
      simp [hnil]
    · intro r hr
      rw [hdef, hsort] at hr
      exact absurd hr (by simp)
  | cons i t =>
    constructor
    · rw [hdef, hsort]
      constructor
      · intro h
        exact absurd h (by simp)
      · intro h
        rw [h] at hsort
        exact absurd hsort (by simp [List.insertionSort])
    · intro r hr
      rw [hdef, hsort] at hr
      have hr2 : i.imageId = r := by
        injection hr
      have hmem : i ∈ availImages allImages baseImage cuda := by
        have : i ∈ List.insertionSort newerFirst (availImages allImages baseImage cuda) := by
          rw [hsort]
          exact List.mem_cons_self _ _
        exact (List.mem_insertionSort newerFirst).mp this
      refine ⟨i, hmem, hr2.symm, ?_⟩
      intro j hj
      have hsorted := List.sorted_insertionSort newerFirst
        (availImages allImages baseImage cuda)
      rw [hsort] at hsorted
      have hj2 : j ∈ i :: t := by
        rw [← hsort]
        exact (List.mem_insertionSort newerFirst).mpr hj
      rcases List.mem_cons.mp hj2 with heq | hj3
      · subst heq
        exact Nat.le_refl _
      · exact List.rel_of_sorted_cons hsorted j hj3

/-- Witness for C5: a lone pending image yields `ResourceNotFound`; with two
available images and a newer pending one, the newest available wins. -/
theorem resolveImage_latest_available_witness :
    getImageId [⟨"dstack-b", "pending", 5, "ami-p", "a"⟩] ("b") false =
      .error .resourceNotFound ∧
    ∃ i, i ∈ availImages
        [⟨"dstack-b", "available", 5, "ami-1", "a"⟩,
         ⟨"dstack-b", "available", 9, "ami-2", "a"⟩,
         ⟨"dstack-b", "pending", 12, "ami-3", "a"⟩] ("b") false ∧
      "ami-2" = i.imageId ∧
      ∀ j ∈ availImages
          [⟨"dstack-b", "available", 5, "ami-1", "a"⟩,
           ⟨"dstack-b", "available", 9, "ami-2", "a"⟩,
           ⟨"dstack-b", "pending", 12, "ami-3", "a"⟩] ("b") false,
        j.creationDate ≤ i.creationDate :=
  ⟨(resolveImage_latest_available [⟨"dstack-b", "pending", 5, "ami-p", "a"⟩] ("b")
        false).1.mpr (by decide),
   (resolveImage_latest_available
        [⟨"dstack-b", "available", 5, "ami-1", "a"⟩,
         ⟨"dstack-b", "available", 9, "ami-2", "a"⟩,
         ⟨"dstack-b", "pending", 12, "ami-3", "a"⟩] ("b") false).2 ("ami-2") (by rfl)⟩

/-- Rule existence is monotone under extension of the rule list on the right. -/
theorem ruleExists_append_left :
    ∀ (r : Value) (xs ys : List Value),
      ruleExists r xs = true → ruleExists r (xs ++ ys) = true := by
  intro r xs ys h
  simp only [ruleExists, List.any_append]
  simp only [ruleExists] at h
  rw [h]
  rfl

/-- Membership of a self-matching rule gives rule existence. -/
theorem ruleExists_of_mem :
    ∀ (r : Value) (rules : List Value), r ∈ rules → isSubset r r = true →
      ruleExists r rules = true := by
  intro r rules hm hr
  exact List.any_eq_true.mpr ⟨r, hm, hr⟩

/-- Reflexivity of the matcher at the SSH ingress rule. -/
theorem sshIngressRule_self : isSubset sshIngressRule sshIngressRule = true := by
  decide

/-- Reflexivity of the matcher at the self-reference rule of any group id. -/
theorem selfReferenceIngressRule_self :
    ∀ gid : String,
      isSubset (selfReferenceIngressRule gid) (selfReferenceIngressRule gid) = true :=
  fun _ => isSubset_rfl _ rfl

/-- Reflexivity of the matcher at the all-traffic egress rule. -/
theorem allTrafficEgressRule_self :
    isSubset allTrafficEgressRule allTrafficEgressRule = true := by
  decide

/-- Appending an ingress rule to a group leaves the describe filters
unchanged. -/
theorem matches_appendIngressRule :
    ∀ (nm : String) (vpc : Option String) (gid : String) (r : Value) (g : SecurityGroup),
      matchesSecurityGroupFilters nm vpc (appendIngressRule gid r g) =
        matchesSecurityGroupFilters nm vpc g := by
  intro nm vpc gid r g
  simp only [appendIngressRule]
  split <;> rfl

/-- Appending an egress rule to a group leaves the describe filters
unchanged. -/
theorem matches_appendEgressRule :
    ∀ (nm : String) (vpc : Option String) (gid : String) (r : Value) (g : SecurityGroup),
      matchesSecurityGroupFilters nm vpc (appendEgressRule gid r g) =
        matchesSecurityGroupFilters nm vpc g := by
  intro nm vpc gid r g
  simp only [appendEgressRule]
  split <;> rfl

/-- Filtering commutes with mapping a filter-preserving function. -/
theorem filter_map_preserved :
    ∀ {α : Type} (p : α → Bool) (f : α → α), (∀ a, p (f a) = p a) →
      ∀ l : List α, (l.map f).filter p = (l.filter p).map f := by
  intro α p f hf l
  induction l with
  | nil => rfl
  | cons a l ih =>
    simp only [List.map_cons, List.filter_cons, hf a]
    cases hpa : p a <;> simp [ih]

/-- Describe after an ingress authorization: the same groups with the rule
appended to the matching ones. -/
theorem describe_authorizeIngress :
    ∀ (s : Ec2State) (gid : String) (r : Value) (nm : String) (vpc : Option String),
      describeSecurityGroups (authorizeSecurityGroupIngress s gid r) nm vpc =
        (describeSecurityGroups s nm vpc).map (appendIngressRule gid r) := by
  intro s gid r nm vpc
  simp only [describeSecurityGroups, authorizeSecurityGroupIngress]
  exact filter_map_preserved _ _ (matches_appendIngressRule nm vpc gid r) s.securityGroups

/-- Describe after an egress authorization. -/
theorem describe_authorizeEgress :
    ∀ (s : Ec2State) (gid : String) (r : Value) (nm : String) (vpc : Option String),
      describeSecurityGroups (authorizeSecurityGroupEgress s gid r) nm vpc =
        (describeSecurityGroups s nm vpc).map (appendEgressRule gid r) := by
  intro s gid r nm vpc
  simp only [describeSecurityGroups, authorizeSecurityGroupEgress]
  exact filter_map_preserved _ _ (matches_appendEgressRule nm vpc gid r) s.securityGroups

/-- Freshly created groups match the describe filters they were created
under. -/
theorem matches_created :
    ∀ (nm : String) (vpc : Option String) (gid : String)
      (a b : List Value),
      matchesSecurityGroupFilters nm vpc ⟨gid, nm, vpc, a, b⟩ = true := by
  intro nm vpc gid a b
  cases vpc <;> simp [matchesSecurityGroupFilters]

/-- Effect of one conditional ingress-rule addition on the head group of the
describe response: the head keeps its id and egress rules, its ingress rules
are only extended, the added rule ends up satisfied, and only authorize
events are logged. -/
theorem addIngress_step :
    ∀ (s : Ec2State) (nm : String) (vpc : Option String) (view : SecurityGroupView)
      (gid : String) (rule : Value) (g : SecurityGroup) (rest : List SecurityGroup),
      describeSecurityGroups s nm vpc = g :: rest →
      g.groupId = gid →
      isSubset rule rule = true →
      (∃ ext, g.ipPermissions = view.ipPermissions ++ ext) →
      ∃ g2 rest2 ext2 evs,
        describeSecurityGroups (addIngressSecurityGroupRuleIfMissing s view gid rule).1
            nm vpc = g2 :: rest2 ∧
        g2.groupId = gid ∧
        g2.ipPermissions = g.ipPermissions ++ ext2 ∧
        (∃ ext3, g2.ipPermissions = view.ipPermissions ++ ext3) ∧
        g2.ipPermissionsEgress = g.ipPermissionsEgress ∧
        ruleExists rule g2.ipPermissions = true ∧
        (addIngressSecurityGroupRuleIfMissing s view gid rule).1.events =
          s.events ++ evs ∧
        evs.count Ec2Event.createSecurityGroup = 0 := by
  intro s nm vpc view gid rule g rest hdesc hgid hrefl hext
  obtain ⟨ext, hext⟩ := hext
  by_cases hex : ruleExists rule view.ipPermissions = true
  · refine ⟨g, rest, [], [], ?_, hgid, by simp, ⟨ext, hext⟩, rfl, ?_,
      by simp [addIngressSecurityGroupRuleIfMissing, hex], by simp⟩
    · simp [addIngressSecurityGroupRuleIfMissing, hex, hdesc]
    · rw [hext]
      exact ruleExists_append_left rule view.ipPermissions ext hex
  · have hexf : ruleExists rule view.ipPermissions = false :=
      Bool.eq_false_iff.mpr hex
    have hupd : appendIngressRule gid rule g =
        { g with ipPermissions := g.ipPermissions ++ [rule] } := by
      simp [appendIngressRule, hgid]
    refine ⟨{ g with ipPermissions := g.ipPermissions ++ [rule] },
      rest.map (appendIngressRule gid rule), [rule], [.authorizeIngress], ?_, ?_, rfl,
      ⟨ext ++ [rule], by rw [hext, List.append_assoc]⟩, rfl, ?_, ?_, by simp⟩
    · rw [show (addIngressSecurityGroupRuleIfMissing s view gid rule).1 =
          authorizeSecurityGroupIngress s gid rule by
            simp [addIngressSecurityGroupRuleIfMissing, hexf]]
      rw [describe_authorizeIngress, hdesc, List.map_cons, hupd]
    · exact hgid
    · exact ruleExists_of_mem rule _ (by simp) hrefl
    · simp [addIngressSecurityGroupRuleIfMissing, hexf, authorizeSecurityGroupIngress]

/-- Effect of one conditional egress-rule addition on the head group of the
describe response. -/
theorem addEgress_step :
    ∀ (s : Ec2State) (nm : String) (vpc : Option String) (view : SecurityGroupView)
      (gid : String) (rule : Value) (g : SecurityGroup) (rest : List SecurityGroup),
      describeSecurityGroups s nm vpc = g :: rest →
      g.groupId = gid →
      isSubset rule rule = true →
      (∃ ext, g.ipPermissionsEgress = view.ipPermissionsEgress ++ ext) →
      ∃ g2 rest2 evs,
        describeSecurityGroups (addEgressSecurityGroupRuleIfMissing s view gid rule).1
            nm vpc = g2 :: rest2 ∧
        g2.groupId = gid ∧
        g2.ipPermissions = g.ipPermissions ∧
        ruleExists rule g2.ipPermissionsEgress = true ∧
        (addEgressSecurityGroupRuleIfMissing s view gid rule).1.events =
          s.events ++ evs ∧
        evs.count Ec2Event.createSecurityGroup = 0 := by
  intro s nm vpc view gid rule g rest hdesc hgid hrefl hext
  obtain ⟨ext, hext⟩ := hext
  by_cases hex : ruleExists rule view.ipPermissionsEgress = true
  · refine ⟨g, rest, [], ?_, hgid, rfl, ?_,
      by simp [addEgressSecurityGroupRuleIfMissing, hex], by simp⟩
    · simp [addEgressSecurityGroupRuleIfMissing, hex, hdesc]
    · rw [hext]
      exact ruleExists_append_left rule view.ipPermissionsEgress ext hex
  · have hexf : ruleExists rule view.ipPermissionsEgress = false :=
      Bool.eq_false_iff.mpr hex
    have hupd : appendEgressRule gid rule g =
        { g with ipPermissionsEgress := g.ipPermissionsEgress ++ [rule] } := by
      simp [appendEgressRule, hgid]
    refine ⟨{ g with ipPermissionsEgress := g.ipPermissionsEgress ++ [rule] },
      rest.map (appendEgressRule gid rule), [.authorizeEgress], ?_, ?_, rfl, ?_, ?_, by simp⟩
    · rw [show (addEgressSecurityGroupRuleIfMissing s view gid rule).1 =
          authorizeSecurityGroupEgress s gid rule by
            simp [addEgressSecurityGroupRuleIfMissing, hexf]]
      rw [describe_authorizeEgress, hdesc, List.map_cons, hupd]
    · exact hgid
    · exact ruleExists_of_mem rule _ (by simp) hrefl
    · simp [addEgressSecurityGroupRuleIfMissing, hexf, authorizeSecurityGroupEgress]

/-- After the three conditional rule additions, the head group of the
describe response carries all three required rules, and only authorize events
were logged. -/
theorem ensureRules_establishes :
    ∀ (s1 : Ec2State) (nm : String) (vpc : Option String) (view : SecurityGroupView)
      (gid : String) (g : SecurityGroup) (rest : List SecurityGroup),
      describeSecurityGroups s1 nm vpc = g :: rest →
      g.groupId = gid →
      view.ipPermissions = g.ipPermissions →
      view.ipPermissionsEgress = g.ipPermissionsEgress →
      ∃ g4 rest4 evs,
        describeSecurityGroups
            (addEgressSecurityGroupRuleIfMissing
              (addIngressSecurityGroupRuleIfMissing
                (addIngressSecurityGroupRuleIfMissing s1 view gid sshIngressRule).1
                view gid (selfReferenceIngressRule gid)).1
              view gid allTrafficEgressRule).1 nm vpc = g4 :: rest4 ∧
        g4.groupId = gid ∧
        ruleExists sshIngressRule g4.ipPermissions = true ∧
        ruleExists (selfReferenceIngressRule gid) g4.ipPermissions = true ∧
        ruleExists allTrafficEgressRule g4.ipPermissionsEgress = true ∧
        (addEgressSecurityGroupRuleIfMissing
            (addIngressSecurityGroupRuleIfMissing
              (addIngressSecurityGroupRuleIfMissing s1 view gid sshIngressRule).1
              view gid (selfReferenceIngressRule gid)).1
            view gid allTrafficEgressRule).1.events = s1.events ++ evs ∧
        evs.count Ec2Event.createSecurityGroup = 0 := by
  intro s1 nm vpc view gid g rest hdesc hgid hvi hve
  obtain ⟨g2, rest2, ext2, evs1, hd2, hid2, hperm2, hviext2, hegr2, hr1, hev2, hc2⟩ :=
    addIngress_step s1 nm vpc view gid sshIngressRule g rest hdesc hgid
      sshIngressRule_self ⟨[], by rw [← hvi]; simp⟩
  obtain ⟨g3, rest3, ext3, evs2, hd3, hid3, hperm3, hviext3, hegr3, hr2, hev3, hc3⟩ :=
    addIngress_step _ nm vpc view gid (selfReferenceIngressRule gid) g2 rest2 hd2 hid2
      (selfReferenceIngressRule_self gid) hviext2
  obtain ⟨g4, rest4, evs3, hd4, hid4, hperm4, hr3, hev4, hc4⟩ :=
    addEgress_step _ nm vpc view gid allTrafficEgressRule g3 rest3 hd3 hid3
      allTrafficEgressRule_self ⟨[], by rw [hegr3, hegr2, ← hve]; simp⟩
  refine ⟨g4, rest4, evs1 ++ evs2 ++ evs3, hd4, hid4, ?_, ?_, hr3, ?_, ?_⟩
  · rw [hperm4, hperm3]
    exact ruleExists_append_left _ _ _ hr1
  · rw [hperm4]
    exact hr2
  · rw [hev4, hev3, hev2]
    simp [List.append_assoc]
  · simp [List.count_append, hc2, hc3, hc4]

/-- One invocation of `create_security_group` leaves the remote state with a
first-described group that has the target id and all three required rules,
logging at most one create event. -/
theorem createSecurityGroup_establishes :
    ∀ (s0 : Ec2State) (projectId : String) (vpcId : Option String),
      ∃ g rest evs,
        describeSecurityGroups (createSecurityGroup s0 projectId vpcId).1
            (securityGroupName projectId) vpcId = g :: rest ∧
        g.groupId = (createSecurityGroup s0 projectId vpcId).2 ∧
        ruleExists sshIngressRule g.ipPermissions = true ∧
        ruleExists (selfReferenceIngressRule g.groupId) g.ipPermissions = true ∧
        ruleExists allTrafficEgressRule g.ipPermissionsEgress = true ∧
        (createSecurityGroup s0 projectId vpcId).1.events = s0.events ++ evs ∧
        evs.count Ec2Event.createSecurityGroup ≤ 1 := by
  intro s0 projectId vpcId
  cases hdesc : describeSecurityGroups s0 (securityGroupName projectId) vpcId with
  | cons g rest =>
    obtain ⟨g4, rest4, evs, hd4, hid4, hr1, hr2, hr3, hev, hc⟩ :=
      ensureRules_establishes s0 (securityGroupName projectId) vpcId
        ⟨g.ipPermissions, g.ipPermissionsEgress⟩ g.groupId g rest hdesc rfl rfl rfl
    simp only [createSecurityGroup, hdesc]
    exact ⟨g4, rest4, evs, hd4, hid4, hr1, by rw [hid4]; exact hr2, hr3, hev, by simp [hc]⟩
  | nil =>
    have hd1 : describeSecurityGroups
        (createSecurityGroupCall s0 (securityGroupName projectId) vpcId).1
        (securityGroupName projectId) vpcId =
        [⟨freshGroupId s0, securityGroupName projectId, vpcId, [], []⟩] := by
      simp only [describeSecurityGroups, createSecurityGroupCall, List.filter_append]
      rw [show s0.securityGroups.filter
            (matchesSecurityGroupFilters (securityGroupName projectId) vpcId) = []
          from hdesc]
      simp [matches_created]
    obtain ⟨g4, rest4, evs, hd4, hid4, hr1, hr2, hr3, hev, hc⟩ :=
      ensureRules_establishes
        (createSecurityGroupCall s0 (securityGroupName projectId) vpcId).1
        (securityGroupName projectId) vpcId ⟨[], []⟩
        (createSecurityGroupCall s0 (securityGroupName projectId) vpcId).2.groupId
        ⟨freshGroupId s0, securityGroupName projectId, vpcId, [], []⟩ [] hd1 rfl rfl rfl
    simp only [createSecurityGroup, hdesc]
    refine ⟨g4, rest4, Ec2Event.createSecurityGroup :: evs, hd4, hid4, hr1,
      by rw [hid4]; exact hr2, hr3, ?_, ?_⟩
    · rw [hev]
      simp [createSecurityGroupCall]
    · simp [hc]

/-- When the described group already satisfies the three required rules,
`create_security_group` issues no mutating call and returns the group's id
with the state unchanged. -/
theorem createSecurityGroup_noop :
    ∀ (s : Ec2State) (projectId : String) (vpcId : Option String)
      (g : SecurityGroup) (rest : List SecurityGroup),
      describeSecurityGroups s (securityGroupName projectId) vpcId = g :: rest →
      ruleExists sshIngressRule g.ipPermissions = true →
      ruleExists (selfReferenceIngressRule g.groupId) g.ipPermissions = true →
      ruleExists allTrafficEgressRule g.ipPermissionsEgress = true →
      createSecurityGroup s projectId vpcId = (s, g.groupId) := by
  intro s projectId vpcId g rest hdesc h1 h2 h3
  simp only [createSecurityGroup, hdesc]
  simp [addIngressSecurityGroupRuleIfMissing, addEgressSecurityGroupRuleIfMissing,
    h1, h2, h3]

/-- Second invocation of `create_security_group` returns the same id and
leaves the state (hence the event log) untouched; the first invocation logged
at most one create event. -/
theorem createSecurityGroup_idem_aux :
    ∀ (s0 : Ec2State) (projectId : String) (vpcId : Option String),
      createSecurityGroup (createSecurityGroup s0 projectId vpcId).1 projectId vpcId =
        ((createSecurityGroup s0 projectId vpcId).1,
         (createSecurityGroup s0 projectId vpcId).2) ∧
      (createSecurityGroup s0 projectId vpcId).1.events.count
          Ec2Event.createSecurityGroup ≤
        s0.events.count Ec2Event.createSecurityGroup + 1 := by
  intro s0 projectId vpcId
  obtain ⟨g, rest, evs, hd, hid, h1, h2, h3, hev, hc⟩ :=
    createSecurityGroup_establishes s0 projectId vpcId
  constructor
  · have hnoop := createSecurityGroup_noop (createSecurityGroup s0 projectId vpcId).1
      projectId vpcId g rest hd h1 h2 h3
    rw [hnoop, hid]
  · rw [hev, List.count_append]
    exact Nat.add_le_add_left hc _

/-- When the role already exists, `create_role_and_policy` short-circuits
without touching the state. -/
theorem createRoleAndPolicy_of_role_exists :
    ∀ (iam : IamState) (projectId : String),
      roleName projectId ∈ iam.roles →
      createRoleAndPolicy iam projectId = .ok (iam, roleName projectId) := by
  intro iam projectId h
  simp [createRoleAndPolicy, getRoleOp, h]

/-- Facts established by a successful `create_role_and_policy`: the returned
name is the derived role name, the role now exists, the instance profiles are
untouched, and each create call was issued at most once. -/
theorem createRoleAndPolicy_ok :
    ∀ (iam0 : IamState) (projectId : String) (iam1 : IamState) (rn : String),
      createRoleAndPolicy iam0 projectId = .ok (iam1, rn) →
      rn = roleName projectId ∧
      roleName projectId ∈ iam1.roles ∧
      iam1.instanceProfiles = iam0.instanceProfiles ∧
      iam1.events.count IamEvent.createPolicy ≤
        iam0.events.count IamEvent.createPolicy + 1 ∧
      iam1.events.count IamEvent.createRole ≤
        iam0.events.count IamEvent.createRole + 1 ∧
      iam1.events.count IamEvent.createInstanceProfile =
        iam0.events.count IamEvent.createInstanceProfile := by
  intro iam0 projectId iam1 rn h
  by_cases hr : roleName projectId ∈ iam0.roles
  · rw [createRoleAndPolicy_of_role_exists iam0 projectId hr] at h
    injection h with h
    injection h with ha hb
    subst ha
    subst hb
    exact ⟨rfl, hr, rfl, by simp, by simp, rfl⟩
  · by_cases hp : policyName projectId ∈ iam0.policies
    · simp [createRoleAndPolicy, getRoleOp, createPolicyOp, hr, hp] at h
    · simp [createRoleAndPolicy, getRoleOp, createPolicyOp, createRoleOp,
        attachRolePolicyOp, hr, hp] at h
      obtain ⟨ha, hb⟩ := h
      subst hb
      refine ⟨rfl, ?_, ?_, ?_, ?_, ?_⟩ <;> rw [← ha] <;>
        simp [List.count_append]

/-- A successful `create_iam_instance_profile` run is idempotent: repeating
it returns the same arn without further state change, and the first run
issued each create call at most once. -/
theorem iamProfile_idempotent :
    ∀ (iam0 : IamState) (projectId : String) (iam1 : IamState) (arn : String),
      createIamInstanceProfile iam0 projectId = .ok (iam1, arn) →
      createIamInstanceProfile iam1 projectId = .ok (iam1, arn) ∧
      iam1.events.count IamEvent.createPolicy ≤
        iam0.events.count IamEvent.createPolicy + 1 ∧
      iam1.events.count IamEvent.createRole ≤
        iam0.events.count IamEvent.createRole + 1 ∧
      iam1.events.count IamEvent.createInstanceProfile ≤
        iam0.events.count IamEvent.createInstanceProfile + 1 := by
  intro iam0 projectId iam1 arn h
  cases hrp : createRoleAndPolicy iam0 projectId with
  | error e =>
    simp only [createIamInstanceProfile, hrp] at h
    exact absurd h (by simp)
  | ok pr =>
    obtain ⟨iamA, rn⟩ := pr
    obtain ⟨hrn, hrole, hprof, hc1, hc2, hc3⟩ :=
      createRoleAndPolicy_ok iam0 projectId iamA rn hrp
    subst hrn
    simp only [createIamInstanceProfile, hrp] at h
    cases hgp : iamA.instanceProfiles.find? (fun p => p.name == roleName projectId) with
    | some p =>
      have hg : getInstanceProfileOp iamA (roleName projectId) = .ok p.arn := by
        simp [getInstanceProfileOp, hgp]
      rw [hg] at h
      simp only [Except.ok.injEq, Prod.mk.injEq] at h
      obtain ⟨ha, hb⟩ := h
      subst ha
      subst hb
      refine ⟨?_, hc1, hc2, by omega⟩
      simp only [createIamInstanceProfile,
        createRoleAndPolicy_of_role_exists iamA projectId hrole, hg]
    | none =>
      have hg : getInstanceProfileOp iamA (roleName projectId) =
          .error ⟨"NoSuchEntity"⟩ := by
        simp [getInstanceProfileOp, hgp]
      rw [hg] at h
      simp only [createInstanceProfileOp, addRoleToInstanceProfileOp, hgp] at h
      simp at h
      obtain ⟨ha, hb⟩ := h
      subst hb
      constructor
      · have hrole1 : roleName projectId ∈ iam1.roles := by
          rw [← ha]
          exact hrole
        have hfind : iam1.instanceProfiles.find? (fun p => p.name == roleName projectId) =
            some ⟨roleName projectId, mkProfileArn (roleName projectId)⟩ := by
          rw [← ha]
          simp [List.find?_append, hgp]
        have hget : getInstanceProfileOp iam1 (roleName projectId) =
            .ok (mkProfileArn (roleName projectId)) := by
          simp [getInstanceProfileOp, hfind]
        simp only [createIamInstanceProfile,
          createRoleAndPolicy_of_role_exists iam1 projectId hrole1, hget]
      · refine ⟨?_, ?_, ?_⟩ <;> rw [← ha] <;> simp [List.count_append] <;> omega

/-- C7: provisioning is idempotent — invoking `create_security_group` twice
returns the same group id both times with the second invocation leaving the
remote state (including the call log) untouched, so it issues no create call
and no rule-addition call for the already-satisfied rules; a successful
`create_iam_instance_profile` re-run returns the same arn with the state
untouched; and across both invocations each create call (security group,
policy, role, instance profile) is issued at most once. -/
theorem provisioning_idempotent :
    (∀ (s0 : Ec2State) (projectId : String) (vpcId : Option String),
        createSecurityGroup (createSecurityGroup s0 projectId vpcId).1 projectId vpcId =
          ((createSecurityGroup s0 projectId vpcId).1,
           (createSecurityGroup s0 projectId vpcId).2) ∧
        (createSecurityGroup s0 projectId vpcId).1.events.count
            Ec2Event.createSecurityGroup ≤
          s0.events.count Ec2Event.createSecurityGroup + 1) ∧
    (∀ (iam0 : IamState) (projectId : String) (iam1 : IamState) (arn : String),
        createIamInstanceProfile iam0 projectId = .ok (iam1, arn) →
        createIamInstanceProfile iam1 projectId = .ok (iam1, arn) ∧
        iam1.events.count IamEvent.createPolicy ≤
          iam0.events.count IamEvent.createPolicy + 1 ∧
        iam1.events.count IamEvent.createRole ≤
          iam0.events.count IamEvent.createRole + 1 ∧
        iam1.events.count IamEvent.createInstanceProfile ≤
          iam0.events.count IamEvent.createInstanceProfile + 1) :=
  ⟨createSecurityGroup_idem_aux, iamProfile_idempotent⟩

/-- Witness for C7: the identity provisioner run from the empty account, with
the second invocation reproducing the first result. -/
theorem provisioning_idempotent_witness :
    createIamInstanceProfile
        ⟨["dstack_role_proj_a"], ["dstack_policy_proj_a"],
         [⟨"dstack_role_proj_a", "arn:aws:iam::instance-profile/dstack_role_proj_a"⟩],
         [("dstack_role_proj_a", "arn:aws:iam::policy/dstack_policy_proj_a")],
         [("dstack_role_proj_a", "dstack_role_proj_a")],
         [.createPolicy, .createRole, .attachRolePolicy, .createInstanceProfile,
          .addRoleToInstanceProfile]⟩ ("proj-a") =
      .ok (⟨["dstack_role_proj_a"], ["dstack_policy_proj_a"],
         [⟨"dstack_role_proj_a", "arn:aws:iam::instance-profile/dstack_role_proj_a"⟩],
         [("dstack_role_proj_a", "arn:aws:iam::policy/dstack_policy_proj_a")],
         [("dstack_role_proj_a", "dstack_role_proj_a")],
         [.createPolicy, .createRole, .attachRolePolicy, .createInstanceProfile,
          .addRoleToInstanceProfile]⟩,
         "arn:aws:iam::instance-profile/dstack_role_proj_a") :=
  (provisioning_idempotent.2 emptyIamState ("proj-a")
      ⟨["dstack_role_proj_a"], ["dstack_policy_proj_a"],
       [⟨"dstack_role_proj_a", "arn:aws:iam::instance-profile/dstack_role_proj_a"⟩],
       [("dstack_role_proj_a", "arn:aws:iam::policy/dstack_policy_proj_a")],
       [("dstack_role_proj_a", "dstack_role_proj_a")],
       [.createPolicy, .createRole, .attachRolePolicy, .createInstanceProfile,
        .addRoleToInstanceProfile]⟩
      ("arn:aws:iam::instance-profile/dstack_role_proj_a") (by rfl)).1

end DstackAws
